import Mathlib

/-!
# Bluelog configuration reader (`readconfig.c`)

A shallow embedding of the configuration subsystem of Bluelog:

* `cfg`        : the `struct cfg` record, C `int` fields as `Int`;
* `config`     : the global snapshot with its default values;
* `cfg_check`  : the range checks and the override rules, run in source order;
* `cfg_read`   : the line reader (`fgets`, `strtok`, `strcmp`, `atoi`).

`exit(1)` is modelled as an `Except` error naming the message printed just
before it.  `MIN_SCAN` and `MAX_SCAN` are macros of another file of the
program and are taken as parameters.
-/

namespace Bluelog

/-! ## Data model -/

/-- The record `struct cfg`. -/
structure cfg where
  outfilename : Option String
  verbose : Int
  quiet : Int
  daemon : Int
  bluelive : Int
  showtime : Int
  obfuscate : Int
  encode : Int
  showclass : Int
  friendlyclass : Int
  bluepropro : Int
  getname : Int
  amnesia : Int
  syslogonly : Int
  getmanufacturer : Int
  retry_count : Int
  scan_window : Int
  bt_socket : Int
deriving DecidableEq, Repr

/-- The global `config` with its initialisers; members without an initialiser
(`outfilename`, `bt_socket`) are zero-initialised by C. -/
def config : cfg :=
  { outfilename := none
    verbose := 0
    quiet := 0
    daemon := 0
    bluelive := 0
    showtime := 0
    obfuscate := 0
    encode := 0
    showclass := 0
    friendlyclass := 0
    bluepropro := 0
    getname := 0
    amnesia := -1
    syslogonly := 0
    getmanufacturer := 0
    retry_count := 3
    scan_window := 8
    bt_socket := 0 }

/-- The ways `cfg_read` and `cfg_check` leave through `exit(1)`, one per message.
`out_of_fuel` is never produced by `cfg_read` (see `cfg_read_loop`). -/
inductive cfg_error where
  /-- Message "Error, arguments must be positive numbers!". -/
  | negative_argument
  /-- Message "Scan window is out of range. See README.". -/
  | scan_out_of_range
  /-- Failure of `fopen` (it returned `NULL`). -/
  | open_failed
  /-- Message "Syntax error or unknown option in configuration file on line %i!". -/
  | unknown_key (linenum : Nat)
  /-- Message "Value missing in configuration file on line %i!". -/
  | missing_value (linenum : Nat)
  /-- The loop model ran out of iterations. -/
  | out_of_fuel
deriving DecidableEq, Repr

/-! ## `cfg_check` -/

/-- The first check of `cfg_check`: a negative retry count, or a negative
amnesia value other than -1. -/
def negative_args (c : cfg) : Prop :=
  c.retry_count < 0 ∨ (c.amnesia < 0 ∧ c.amnesia ≠ -1)

instance (c : cfg) : Decidable (negative_args c) := by
  unfold negative_args; infer_instance

/-- The second check of `cfg_check`: the scan window is outside
`[MIN_SCAN, MAX_SCAN]`. -/
def scan_out_of_range (MIN_SCAN MAX_SCAN : Int) (c : cfg) : Prop :=
  c.scan_window > MAX_SCAN ∨ c.scan_window < MIN_SCAN

instance (lo hi : Int) (c : cfg) : Decidable (scan_out_of_range lo hi c) := by
  unfold scan_out_of_range; infer_instance

/-- Rule "If retry is set, assume names are on. Default retry value". -/
def rule_retry (c : cfg) : cfg :=
  if c.retry_count > 0 then { c with getname := 1 } else { c with retry_count := 3 }

/-- Rule "No verbose for daemon". -/
def rule_daemon (c : cfg) : cfg :=
  if c.daemon ≠ 0 then { c with verbose := 0 } else c

/-- Rule "No Bluelog Live when running BPP, names on, syslog off". -/
def rule_bluepropro (c : cfg) : cfg :=
  if c.bluepropro ≠ 0 then { c with bluelive := 0, getname := 1, syslogonly := 0 } else c

/-- Rule "Showing raw class ID turns off friendly names". -/
def rule_showclass (c : cfg) : cfg :=
  if c.showclass ≠ 0 then { c with friendlyclass := 0 } else c

/-- Rule "No timestamps for Bluelog Live, names on, syslog off". -/
def rule_bluelive (c : cfg) : cfg :=
  if c.bluelive ≠ 0 then { c with showtime := 0, getname := 1, syslogonly := 0 } else c

/-- Rule "No timestamps in syslog mode, disable other modes". -/
def rule_syslogonly (c : cfg) : cfg :=
  if c.syslogonly ≠ 0 then { c with showtime := 0, bluelive := 0, bluepropro := 0 } else c

/-- Rule "Encode trumps obfuscate". -/
def rule_encode (c : cfg) : cfg :=
  if c.encode ≠ 0 then { c with obfuscate := 0 } else c

/-- The override part of `cfg_check`: the seven rules in source order, each
one reading what the previous ones wrote. -/
def apply_rules (c : cfg) : cfg :=
  rule_encode (rule_syslogonly (rule_bluelive (rule_showclass
    (rule_bluepropro (rule_daemon (rule_retry c))))))

/-- The function `cfg_check`: two range checks that exit, then the override
rules. -/
def cfg_check (MIN_SCAN MAX_SCAN : Int) (c : cfg) : Except cfg_error cfg :=
  if negative_args c then
    .error .negative_argument
  else if scan_out_of_range MIN_SCAN MAX_SCAN c then
    .error .scan_out_of_range
  else
    .ok (apply_rules c)

/-! ## `cfg_read` -/

/-- The macro `MAX_LINE_LEN`. -/
def MAX_LINE_LEN : Nat := 256

/-- What one `fgets` call stores when it may store at most `n` characters of
the stream `f`: it stops after a newline, at end of file, or after `n`
characters.  Returns the stored characters and the unread rest of the stream. -/
def fgets_chars : Nat → List Char → List Char × List Char
  | 0, f => ([], f)
  | _ + 1, [] => ([], [])
  | n + 1, ch :: f =>
    if ch = '\n' then ([ch], f)
    else (ch :: (fgets_chars n f).1, (fgets_chars n f).2)

/-- The call `fgets(line, size, cfgfile)`: `NULL` at end of file, else at most
`size - 1` characters, the last of them a newline if one was met. -/
def fgets (size : Nat) (f : List Char) : Option (List Char × List Char) :=
  if f = [] then none else some (fgets_chars (size - 1) f)

/-- The C string held in a buffer: its characters before the first NUL. -/
def c_str (buf : List Char) : List Char :=
  buf.takeWhile (fun ch => ch ≠ '\x00')

/-- The delimiter set `"\t =\n\r"` passed to `strtok`. -/
def delimiters : List Char := ['\t', ' ', '=', '\n', '\r']

/-- Membership in the delimiter set. -/
def is_delim (ch : Char) : Bool := decide (ch ∈ delimiters)

/-- One `strtok` call on the string starting at the current position `s`
(the line for the first call, the saved position for a call with `NULL`):
skip leading delimiters; `NULL` if nothing is left; else the token is the run
of non-delimiters, and the saved position is just past the delimiter that ended
it (or the end of the string). -/
def strtok (s : List Char) : Option (List Char × List Char) :=
  match s.dropWhile is_delim with
  | [] => none
  | t => some (t.takeWhile (fun ch => !is_delim ch),
               (t.dropWhile (fun ch => !is_delim ch)).drop 1)

/-- C `isspace` in the "C" locale. -/
def isspace (ch : Char) : Bool :=
  ch = ' ' || ch = '\t' || ch = '\n' || ch = '\x0b' || ch = '\x0c' || ch = '\r'

/-- C `isdigit`. -/
def isdigit (ch : Char) : Bool :=
  decide (48 ≤ ch.toNat) && decide (ch.toNat ≤ 57)

/-- Value of the leading run of decimal digits of `s`, continuing from `acc`. -/
def digits_value : Nat → List Char → Nat
  | acc, [] => acc
  | acc, ch :: s =>
    if isdigit ch then digits_value (10 * acc + (ch.toNat - 48)) s else acc

/-- The bound `LONG_MAX` of a 64-bit `long`. -/
def LONG_MAX : Int := 9223372036854775807

/-- The bound `LONG_MIN` of a 64-bit `long`. -/
def LONG_MIN : Int := -9223372036854775808

/-- The call `strtol(s, NULL, 10)`: skip white space, read an optional sign and
the digits that follow, clamp to the range of `long`. -/
def strtol (s : List Char) : Int :=
  match s.dropWhile isspace with
  | '-' :: r => max (-(digits_value 0 r : Int)) LONG_MIN
  | '+' :: r => min (digits_value 0 r : Int) LONG_MAX
  | r => min (digits_value 0 r : Int) LONG_MAX

/-- Conversion of a `long` to a 32-bit `int` (two's complement wrap). -/
def to_int (x : Int) : Int := (x + 2147483648) % 4294967296 - 2147483648

/-- The call `atoi(s)`, as the C library defines it: `(int) strtol(s, NULL, 10)`. -/
def atoi (s : List Char) : Int := to_int (strtol s)

/-- The `strcmp` chain of `cfg_read`: the field written for a key, `none` when
no comparison succeeds (the final `else`). -/
def dispatch (token : List Char) (v : Int) (c : cfg) : Option cfg :=
  if token = "VERBOSE".toList then some { c with verbose := v }
  else if token = "QUIET".toList then some { c with quiet := v }
  else if token = "DAEMON".toList then some { c with daemon := v }
  else if token = "LIVEMODE".toList then some { c with bluelive := v }
  else if token = "SHOWTIME".toList then some { c with showtime := v }
  else if token = "OBFUSCATE".toList then some { c with obfuscate := v }
  else if token = "ENCODE".toList then some { c with encode := v }
  else if token = "SHOWCLASS".toList then some { c with showclass := v }
  else if token = "FRIENDLYCLASS".toList then some { c with friendlyclass := v }
  else if token = "BLUEPROPRO".toList then some { c with bluepropro := v }
  else if token = "GETNAME".toList then some { c with getname := v }
  else if token = "AMNESIA".toList then some { c with amnesia := v }
  else if token = "SYSLOGONLY".toList then some { c with syslogonly := v }
  else if token = "GETMANUFACTURER".toList then some { c with getmanufacturer := v }
  else if token = "SCANWINDOW".toList then some { c with scan_window := v }
  else if token = "RETRYCOUNT".toList then some { c with retry_count := v }
  else none

/-- The body of the `while` loop of `cfg_read` for the buffer `line`, without
the line counter increment. -/
def cfg_read_line (line : List Char) (linenum : Nat) (c : cfg) : Except cfg_error cfg :=
  match strtok (c_str line) with
  | none => .ok c
  | some (token, saved) =>
    if token.head? = some '#' then .ok c
    else
      match strtok saved with
      | some (value, _) =>
        match dispatch token (atoi value) c with
        | some c1 => .ok c1
        | none => .error (.unknown_key linenum)
      | none => .error (.missing_value linenum)

/-- The `while (fgets(...) != NULL)` loop of `cfg_read`, with an iteration
budget `fuel`; `linenum` is the line counter (a `Nat`: the C `int` does not
overflow below 2^31 reads). -/
def cfg_read_loop : Nat → List Char → Nat → cfg → Except cfg_error cfg
  | 0, _, _, _ => .error .out_of_fuel
  | fuel + 1, f, linenum, c =>
    match fgets MAX_LINE_LEN f with
    | none => .ok c
    | some (line, rest) =>
      match cfg_read_line line linenum c with
      | .ok c1 => cfg_read_loop fuel rest (linenum + 1) c1
      | .error e => .error e

/-- The function `cfg_read` on the configuration file: `none` when `fopen`
fails, else the bytes of the file, one `Char` each.  Every `fgets` that does
not return `NULL` consumes a character, so `length + 1` iterations suffice. -/
def cfg_read (file : Option (List Char)) (c : cfg) : Except cfg_error cfg :=
  match file with
  | none => .error .open_failed
  | some f => cfg_read_loop (f.length + 1) f 1 c

/-! ## Vocabulary of the file format -/

/-- The physical lines of a file: the text between newlines, newline excluded;
a last line without a newline counts when it is not empty. -/
def physical_lines : List Char → List (List Char)
  | [] => []
  | ch :: f =>
    if ch = '\n' then [] :: physical_lines f
    else
      match physical_lines f with
      | [] => [[ch]]
      | l :: ls => (ch :: l) :: ls

/-- The tokens of a string: its maximal runs of non-delimiters. -/
def tokens (s : List Char) : List (List Char) :=
  (s.splitOnP is_delim).filter (fun t => !t.isEmpty)

/-- The tokens of a line as the program sees it, that is of the C string the
line buffer holds. -/
def line_tokens (l : List Char) : List (List Char) := tokens (c_str l)

/-- The 16 recognised keys. -/
def recognised_keys : List (List Char) :=
  ["VERBOSE".toList, "QUIET".toList, "DAEMON".toList, "LIVEMODE".toList,
   "SHOWTIME".toList, "OBFUSCATE".toList, "ENCODE".toList, "SHOWCLASS".toList,
   "FRIENDLYCLASS".toList, "BLUEPROPRO".toList, "GETNAME".toList, "AMNESIA".toList,
   "SYSLOGONLY".toList, "GETMANUFACTURER".toList, "SCANWINDOW".toList,
   "RETRYCOUNT".toList]

/-- A line without any token: it holds delimiters only. -/
def is_blank (l : List Char) : Bool :=
  (line_tokens l).isEmpty

/-- A line whose first token begins with `#`. -/
def is_comment (l : List Char) : Bool :=
  match line_tokens l with
  | t :: _ => t.head? = some '#'
  | [] => false

/-- A line whose first token is a recognised key and is followed by a value. -/
def is_directive (l : List Char) : Bool :=
  match line_tokens l with
  | t :: _ :: _ => decide (t ∈ recognised_keys)
  | _ => false

/-- A line that is blank, a comment or a directive with a recognised key. -/
def is_valid_line (l : List Char) : Bool :=
  is_blank l || is_comment l || is_directive l

/-- A line whose first token does not begin with `#`, is none of the
recognised keys, and is followed by a second token. -/
def is_unknown_key_line (l : List Char) : Bool :=
  match line_tokens l with
  | t :: _ :: _ => t.head? ≠ some '#' && decide (t ∉ recognised_keys)
  | _ => false

/-- A line whose first token does not begin with `#` and is its only token. -/
def is_missing_value_line (l : List Char) : Bool :=
  match line_tokens l with
  | [t] => t.head? ≠ some '#'
  | _ => false

/-! ## Vocabulary of the claims on keys, rules and lines -/

/-- The 16 integer fields that a key of the file sets, one per recognised key. -/
inductive key where
  | verbose | quiet | daemon | bluelive | showtime | obfuscate | encode | showclass
  | friendlyclass | bluepropro | getname | amnesia | syslogonly | getmanufacturer
  | scan_window | retry_count
deriving DecidableEq, Repr

/-- The text of the key that `cfg_read` compares with, for each field. -/
def key.name : key → List Char
  | .verbose => "VERBOSE".toList
  | .quiet => "QUIET".toList
  | .daemon => "DAEMON".toList
  | .bluelive => "LIVEMODE".toList
  | .showtime => "SHOWTIME".toList
  | .obfuscate => "OBFUSCATE".toList
  | .encode => "ENCODE".toList
  | .showclass => "SHOWCLASS".toList
  | .friendlyclass => "FRIENDLYCLASS".toList
  | .bluepropro => "BLUEPROPRO".toList
  | .getname => "GETNAME".toList
  | .amnesia => "AMNESIA".toList
  | .syslogonly => "SYSLOGONLY".toList
  | .getmanufacturer => "GETMANUFACTURER".toList
  | .scan_window => "SCANWINDOW".toList
  | .retry_count => "RETRYCOUNT".toList

/-- The value of a field in a snapshot. -/
def key.get : key → cfg → Int
  | .verbose, c => c.verbose
  | .quiet, c => c.quiet
  | .daemon, c => c.daemon
  | .bluelive, c => c.bluelive
  | .showtime, c => c.showtime
  | .obfuscate, c => c.obfuscate
  | .encode, c => c.encode
  | .showclass, c => c.showclass
  | .friendlyclass, c => c.friendlyclass
  | .bluepropro, c => c.bluepropro
  | .getname, c => c.getname
  | .amnesia, c => c.amnesia
  | .syslogonly, c => c.syslogonly
  | .getmanufacturer, c => c.getmanufacturer
  | .scan_window, c => c.scan_window
  | .retry_count, c => c.retry_count

/-- The override rules of `cfg_check` by position, from 0. -/
def rule_at : Nat → cfg → cfg
  | 0 => rule_retry
  | 1 => rule_daemon
  | 2 => rule_bluepropro
  | 3 => rule_showclass
  | 4 => rule_bluelive
  | 5 => rule_syslogonly
  | 6 => rule_encode
  | _ => id

/-- The snapshot after the first `i` override rules of one run. -/
def state_after : Nat → cfg → cfg
  | 0, c => c
  | i + 1, c => rule_at i (state_after i c)

/-- The assignment statements that rule `i` executes when it runs in state
`s`, as pairs of the field written and the value written. -/
def assigned : Nat → cfg → List (key × Int)
  | 0, s => if s.retry_count > 0 then [(.getname, 1)] else [(.retry_count, 3)]
  | 1, s => if s.daemon ≠ 0 then [(.verbose, 0)] else []
  | 2, s => if s.bluepropro ≠ 0 then [(.bluelive, 0), (.getname, 1), (.syslogonly, 0)] else []
  | 3, s => if s.showclass ≠ 0 then [(.friendlyclass, 0)] else []
  | 4, s => if s.bluelive ≠ 0 then [(.showtime, 0), (.getname, 1), (.syslogonly, 0)] else []
  | 5, s => if s.syslogonly ≠ 0 then [(.showtime, 0), (.bluelive, 0), (.bluepropro, 0)] else []
  | 6, s => if s.encode ≠ 0 then [(.obfuscate, 0)] else []
  | _, _ => []

/-- The override rules with the syslog-only rule moved before the push-protocol
rule, the other rules keeping their order.  This order is not the program's: it
is the reordering whose effect is compared with `apply_rules`. -/
def apply_rules_reordered (c : cfg) : cfg :=
  rule_encode (rule_bluelive (rule_showclass (rule_bluepropro
    (rule_syslogonly (rule_daemon (rule_retry c))))))

/-- The function `cfg_check` with the reordered rules in place of its own. -/
def cfg_check_reordered (MIN_SCAN MAX_SCAN : Int) (c : cfg) : Except cfg_error cfg :=
  if negative_args c then
    .error .negative_argument
  else if scan_out_of_range MIN_SCAN MAX_SCAN c then
    .error .scan_out_of_range
  else
    .ok (apply_rules_reordered c)

/-- The pieces of a string that are left when the string ends at its first NUL:
the pieces before the one that holds the NUL, then what that piece has before
the NUL. -/
def cut_at_nul : List (List Char) → List (List Char)
  | [] => []
  | s :: ss => if s.all (fun ch => ch ≠ '\x00') then s :: cut_at_nul ss else [c_str s]

/-! ## Lemmas on `cfg_check` -/

theorem cfg_check_ok_iff (lo hi : Int) (c c1 : cfg) :
    cfg_check lo hi c = .ok c1 ↔
      (¬ negative_args c ∧ ¬ scan_out_of_range lo hi c ∧ apply_rules c = c1) := by
  unfold cfg_check
  split_ifs with h1 h2 <;> simp [*]

theorem cfg_check_of_in_range (lo hi : Int) (c : cfg)
    (h1 : ¬ negative_args c) (h2 : ¬ scan_out_of_range lo hi c) :
    cfg_check lo hi c = .ok (apply_rules c) := by
  simp [cfg_check, h1, h2]

theorem cfg_check_negative_iff (lo hi : Int) (c : cfg) :
    cfg_check lo hi c = .error .negative_argument ↔ negative_args c := by
  unfold cfg_check
  by_cases h1 : negative_args c <;> by_cases h2 : scan_out_of_range lo hi c <;>
    simp [h1, h2]

theorem cfg_check_scan_iff (lo hi : Int) (c : cfg) :
    cfg_check lo hi c = .error .scan_out_of_range ↔
      (¬ negative_args c ∧ scan_out_of_range lo hi c) := by
  unfold cfg_check
  by_cases h1 : negative_args c <;> by_cases h2 : scan_out_of_range lo hi c <;>
    simp [h1, h2]

theorem cfg_check_error_iff (lo hi : Int) (c : cfg) :
    (∃ e, cfg_check lo hi c = .error e) ↔
      (negative_args c ∨ scan_out_of_range lo hi c) := by
  unfold cfg_check
  by_cases h1 : negative_args c <;> by_cases h2 : scan_out_of_range lo hi c <;>
    simp [h1, h2]

/-- The state after the seven override rules, field by field, in terms of the
state before them. -/
theorem apply_rules_eq (c : cfg) :
    apply_rules c =
      { outfilename := c.outfilename
        verbose := if c.daemon ≠ 0 then 0 else c.verbose
        quiet := c.quiet
        daemon := c.daemon
        bluelive := if c.bluepropro ≠ 0 then 0 else c.bluelive
        showtime :=
          if c.bluepropro = 0 ∧ (c.bluelive ≠ 0 ∨ c.syslogonly ≠ 0) then 0 else c.showtime
        obfuscate := if c.encode ≠ 0 then 0 else c.obfuscate
        encode := c.encode
        showclass := c.showclass
        friendlyclass := if c.showclass ≠ 0 then 0 else c.friendlyclass
        bluepropro := c.bluepropro
        getname :=
          if c.retry_count > 0 ∨ c.bluepropro ≠ 0 ∨ c.bluelive ≠ 0 then 1 else c.getname
        amnesia := c.amnesia
        syslogonly := if c.bluepropro ≠ 0 ∨ c.bluelive ≠ 0 then 0 else c.syslogonly
        getmanufacturer := c.getmanufacturer
        retry_count := if c.retry_count > 0 then c.retry_count else 3
        scan_window := c.scan_window
        bt_socket := c.bt_socket } := by
  obtain ⟨fn, vb, qu, dm, bl, st, ob, en, sc, fc, bp, gn, am, sy, gm, rc, sw, so⟩ := c
  by_cases h1 : rc > 0 <;> by_cases h2 : dm = 0 <;> by_cases h3 : bp = 0 <;>
    by_cases h4 : sc = 0 <;> by_cases h5 : bl = 0 <;> by_cases h6 : sy = 0 <;>
    by_cases h7 : en = 0 <;>
    simp [apply_rules, rule_retry, rule_daemon, rule_bluepropro, rule_showclass,
      rule_bluelive, rule_syslogonly, rule_encode, h1, h2, h3, h4, h5, h6, h7]

theorem apply_rules_retry_count_pos (c : cfg) : 0 < (apply_rules c).retry_count := by
  rw [apply_rules_eq]
  by_cases h : c.retry_count > 0 <;> simp [h]

theorem apply_rules_in_range (lo hi : Int) (c : cfg)
    (h1 : ¬ negative_args c) (h2 : ¬ scan_out_of_range lo hi c) :
    ¬ negative_args (apply_rules c) ∧ ¬ scan_out_of_range lo hi (apply_rules c) := by
  have hp := apply_rules_retry_count_pos c
  have ha : (apply_rules c).amnesia = c.amnesia := by rw [apply_rules_eq]
  have hs : (apply_rules c).scan_window = c.scan_window := by rw [apply_rules_eq]
  unfold negative_args scan_out_of_range at *
  rw [ha, hs]
  constructor
  · intro h
    rcases h with h | h
    · omega
    · exact h1 (Or.inr h)
  · exact h2

/-- Running the rules on their own output only sets `getname` to 1. -/
theorem apply_rules_twice (c : cfg) :
    apply_rules (apply_rules c) = { apply_rules c with getname := 1 } := by
  have hp := apply_rules_retry_count_pos c
  generalize hc1 : apply_rules c = c1 at hp
  have h := apply_rules_eq c
  rw [hc1] at h
  rw [apply_rules_eq c1]
  have hp1 : c1.retry_count > 0 := hp
  obtain ⟨fn, vb, qu, dm, bl, st, ob, en, sc, fc, bp, gn, am, sy, gm, rc, sw, so⟩ := c
  subst h
  simp only [gt_iff_lt] at hp1
  by_cases h2 : dm = 0 <;> by_cases h3 : bp = 0 <;>
    by_cases h4 : sc = 0 <;> by_cases h5 : bl = 0 <;> by_cases h6 : sy = 0 <;>
    by_cases h7 : en = 0 <;>
    simp [h2, h3, h4, h5, h6, h7, hp1]

/-! ## C1 to C8: the Rule Resolver -/

/-- C1 (counterexample): with `MIN_SCAN = 1` and `MAX_SCAN = 30`, the defaults
with `retry_count = 0` resolve to the defaults (`retry_count = 3`,
`getname = 0`); resolving these again succeeds with `getname = 1`, so the second
result differs from the first. -/
theorem cfg_check_idempotent_counterexample :
    cfg_check 1 30 { config with retry_count := 0 } = .ok config ∧
    cfg_check 1 30 config = .ok { config with getname := 1 } ∧
    cfg_check 1 30 config ≠ .ok config := by
  refine ⟨rfl, rfl, ?_⟩
  intro e
  have e1 : (Except.ok { config with getname := 1 } : Except cfg_error cfg) = .ok config := e
  exact absurd (congrArg cfg.getname (Except.ok.inj e1)) (by decide)

/-- C1 (amended): if `cfg_check` succeeds on `s` with result `s1`, then
`cfg_check` succeeds on `s1` and returns `s1` with `getname` set to 1; the
second result is identical to `s1` exactly when `s1.getname = 1`, which is the
case whenever `s` has `retry_count > 0`, `bluepropro ≠ 0` or `bluelive ≠ 0`. -/
theorem cfg_check_twice (lo hi : Int) (s s1 : cfg) (h : cfg_check lo hi s = .ok s1) :
    cfg_check lo hi s1 = .ok { s1 with getname := 1 } ∧
    (cfg_check lo hi s1 = .ok s1 ↔ s1.getname = 1) ∧
    (s.retry_count > 0 ∨ s.bluepropro ≠ 0 ∨ s.bluelive ≠ 0 → cfg_check lo hi s1 = .ok s1) := by
  obtain ⟨h1, h2, rfl⟩ := (cfg_check_ok_iff lo hi s s1).1 h
  obtain ⟨h3, h4⟩ := apply_rules_in_range lo hi s h1 h2
  have hrun : cfg_check lo hi (apply_rules s)
      = .ok { apply_rules s with getname := 1 } := by
    rw [cfg_check_of_in_range lo hi _ h3 h4, apply_rules_twice]
  have hiff : cfg_check lo hi (apply_rules s) = .ok (apply_rules s)
      ↔ (apply_rules s).getname = 1 := by
    rw [hrun]
    constructor
    · intro e
      have e1 := congrArg cfg.getname (Except.ok.inj e)
      exact e1.symm
    · intro e
      congr 1
      cases hc : apply_rules s
      rw [hc] at e
      simp only at e
      subst e
      rfl
  refine ⟨hrun, hiff, ?_⟩
  intro hs
  rw [hiff, apply_rules_eq]
  simp [hs]

/-- Witness of C1 (amended): the defaults with `retry_count = 0`. -/
theorem cfg_check_twice_witness :
    cfg_check 1 30 { config with retry_count := 0 } = .ok config ∧
    (cfg_check 1 30 config = .ok { config with getname := 1 } ∧
     (cfg_check 1 30 config = .ok config ↔ config.getname = 1) ∧
     ((0 : Int) > 0 ∨ config.bluepropro ≠ 0 ∨ config.bluelive ≠ 0 →
        cfg_check 1 30 config = .ok config)) :=
  ⟨rfl, cfg_check_twice 1 30 { config with retry_count := 0 } config rfl⟩

/-- C2: in every snapshot returned by `cfg_check`, (5) `bluepropro ≠ 0` implies
`bluelive = 0`, `getname ≠ 0` and `syslogonly = 0`; (7) `bluelive ≠ 0` implies
`showtime = 0`, `getname ≠ 0` and `syslogonly = 0`; (8) `syslogonly ≠ 0` implies
`showtime = 0`, `bluelive = 0` and `bluepropro = 0`. -/
theorem cfg_check_mode_exclusion (lo hi : Int) (c c1 : cfg)
    (h : cfg_check lo hi c = .ok c1) :
    (c1.bluepropro ≠ 0 → c1.bluelive = 0 ∧ c1.getname ≠ 0 ∧ c1.syslogonly = 0) ∧
    (c1.bluelive ≠ 0 → c1.showtime = 0 ∧ c1.getname ≠ 0 ∧ c1.syslogonly = 0) ∧
    (c1.syslogonly ≠ 0 → c1.showtime = 0 ∧ c1.bluelive = 0 ∧ c1.bluepropro = 0) := by
  obtain ⟨-, -, rfl⟩ := (cfg_check_ok_iff lo hi c c1).1 h
  rw [apply_rules_eq]
  by_cases h3 : c.bluepropro = 0 <;> by_cases h5 : c.bluelive = 0 <;>
    by_cases h6 : c.syslogonly = 0 <;> simp [h3, h5, h6]

/-- Witness of C2: all three modes switched on, with values other than 1. -/
theorem cfg_check_mode_exclusion_witness :
    cfg_check 1 30 { config with bluepropro := -1, bluelive := 2, syslogonly := 7 }
      = .ok { config with bluepropro := -1, getname := 1 } ∧
    (((-1 : Int) ≠ 0 → (0 : Int) = 0 ∧ (1 : Int) ≠ 0 ∧ (0 : Int) = 0) ∧
     ((0 : Int) ≠ 0 → (0 : Int) = 0 ∧ (1 : Int) ≠ 0 ∧ (0 : Int) = 0) ∧
     ((0 : Int) ≠ 0 → (0 : Int) = 0 ∧ (0 : Int) = 0 ∧ (-1 : Int) = 0)) :=
  ⟨rfl, cfg_check_mode_exclusion 1 30
    { config with bluepropro := -1, bluelive := 2, syslogonly := 7 }
    { config with bluepropro := -1, getname := 1 } rfl⟩

/-- C3: for every snapshot with `bluepropro ≠ 0` that passes the range checks,
whatever `bluelive` and `syslogonly` are, `cfg_check` succeeds and returns a
snapshot with `bluepropro` unchanged, `bluelive = 0`, `getname = 1` and
`syslogonly = 0`. -/
theorem cfg_check_bluepropro_priority (lo hi : Int) (c : cfg)
    (hbp : c.bluepropro ≠ 0)
    (h1 : ¬ negative_args c) (h2 : ¬ scan_out_of_range lo hi c) :
    ∃ c1, cfg_check lo hi c = .ok c1 ∧ c1.bluepropro = c.bluepropro ∧
      c1.bluelive = 0 ∧ c1.getname = 1 ∧ c1.syslogonly = 0 := by
  refine ⟨apply_rules c, cfg_check_of_in_range lo hi c h1 h2, ?_⟩
  rw [apply_rules_eq]
  simp [hbp]

/-- Witness of C3: the file `BLUEPROPRO=1`, `LIVEMODE=1` parsed into the default
snapshot gives `bluepropro = 1` and `bluelive = 1`, and resolves to
`bluepropro = 1`, `bluelive = 0`, `getname = 1`, `syslogonly = 0`. -/
theorem cfg_check_bluepropro_priority_witness :
    cfg_read (some "BLUEPROPRO=1\nLIVEMODE=1\n".toList) config
      = .ok { config with bluepropro := 1, bluelive := 1 } ∧
    ∃ c1, cfg_check 1 30 { config with bluepropro := 1, bluelive := 1 } = .ok c1 ∧
      c1.bluepropro = 1 ∧ c1.bluelive = 0 ∧ c1.getname = 1 ∧ c1.syslogonly = 0 :=
  ⟨rfl, cfg_check_bluepropro_priority 1 30 { config with bluepropro := 1, bluelive := 1 }
    (by decide) (by decide) (by decide)⟩

/-- C4: `cfg_check` fails if and only if `retry_count < 0`, or `amnesia < 0`
with `amnesia ≠ -1`, or `scan_window < MIN_SCAN`, or `scan_window > MAX_SCAN`;
the failure is the negative-argument error exactly when `retry_count < 0` or
`amnesia < -1`, and the scan-window error otherwise.  When
`MIN_SCAN ≤ 8 ≤ MAX_SCAN < 999`, the defaults with `scan_window = 999` fail with
the scan-window error and the defaults with `scan_window = 8` succeed. -/
theorem cfg_check_fails_iff (lo hi : Int) (c : cfg) :
    ((∃ e, cfg_check lo hi c = .error e) ↔
      (c.retry_count < 0 ∨ (c.amnesia < 0 ∧ c.amnesia ≠ -1) ∨
        c.scan_window < lo ∨ c.scan_window > hi)) ∧
    (cfg_check lo hi c = .error .negative_argument ↔
      (c.retry_count < 0 ∨ c.amnesia < -1)) ∧
    (cfg_check lo hi c = .error .scan_out_of_range ↔
      (¬ (c.retry_count < 0 ∨ c.amnesia < -1) ∧
        (c.scan_window < lo ∨ c.scan_window > hi))) ∧
    (∀ e, cfg_check lo hi c = .error e →
      e = .negative_argument ∨ e = .scan_out_of_range) ∧
    (lo ≤ 8 → 8 ≤ hi → hi < 999 →
      cfg_check lo hi { config with scan_window := 999 } = .error .scan_out_of_range ∧
      ∃ c1, cfg_check lo hi { config with scan_window := 8 } = .ok c1) := by
  have hneg : negative_args c ↔ (c.retry_count < 0 ∨ c.amnesia < -1) := by
    unfold negative_args
    constructor
    · rintro (h | ⟨h, h'⟩)
      · exact Or.inl h
      · exact Or.inr (by omega)
    · rintro (h | h)
      · exact Or.inl h
      · exact Or.inr ⟨by omega, by omega⟩
  have hneg' : negative_args c ↔ (c.retry_count < 0 ∨ (c.amnesia < 0 ∧ c.amnesia ≠ -1)) :=
    Iff.rfl
  have hsc : scan_out_of_range lo hi c ↔ (c.scan_window < lo ∨ c.scan_window > hi) := by
    unfold scan_out_of_range
    exact Or.comm
  refine ⟨?_, ?_, ?_, ?_, ?_⟩
  · rw [cfg_check_error_iff, hneg', hsc, or_assoc]
  · rw [cfg_check_negative_iff, hneg]
  · rw [cfg_check_scan_iff, hneg, hsc]
  · intro e he
    by_cases h1 : negative_args c
    · rw [(cfg_check_negative_iff lo hi c).2 h1] at he
      exact Or.inl (Except.error.inj he).symm
    · by_cases h2 : scan_out_of_range lo hi c
      · rw [(cfg_check_scan_iff lo hi c).2 ⟨h1, h2⟩] at he
        exact Or.inr (Except.error.inj he).symm
      · rw [cfg_check_of_in_range lo hi c h1 h2] at he
        cases he
  · intro hlo hhi h999
    constructor
    · have ha : ¬ negative_args { config with scan_window := 999 } := by decide
      have hb : scan_out_of_range lo hi { config with scan_window := 999 } :=
        Or.inl (show (999 : Int) > hi from h999)
      simp [cfg_check, ha, hb]
    · have ha : ¬ negative_args { config with scan_window := 8 } := by decide
      have hb : ¬ scan_out_of_range lo hi { config with scan_window := 8 } := by
        intro h
        rcases h with h | h
        · exact absurd (show (8 : Int) > hi from h) (by omega)
        · exact absurd (show (8 : Int) < lo from h) (by omega)
      exact ⟨_, cfg_check_of_in_range lo hi _ ha hb⟩

/-- Witness of C4: with `MIN_SCAN = 1` and `MAX_SCAN = 30`, the defaults with
`scan_window = 999` fail with the scan-window error, the defaults with
`scan_window = 8` succeed, and a negative retry count together with an
out-of-range scan window gives the negative-argument error. -/
theorem cfg_check_fails_iff_witness :
    (cfg_check 1 30 { config with scan_window := 999 } = .error .scan_out_of_range ∧
      ∃ c1, cfg_check 1 30 { config with scan_window := 8 } = .ok c1) ∧
    cfg_check 1 30 { config with retry_count := -1, scan_window := 999 }
      = .error .negative_argument :=
  ⟨(cfg_check_fails_iff 1 30 config).2.2.2.2 (by decide) (by decide) (by decide),
   (cfg_check_fails_iff 1 30 { config with retry_count := -1, scan_window := 999 }).2.1.2
     (Or.inl (by decide))⟩

/-- C5: for every snapshot with `retry_count > 0` that passes the range checks,
`cfg_check` succeeds and returns a snapshot with `getname = 1` and
`retry_count` unchanged. -/
theorem cfg_check_retry_forces_getname (lo hi : Int) (c : cfg)
    (hr : c.retry_count > 0)
    (h1 : ¬ negative_args c) (h2 : ¬ scan_out_of_range lo hi c) :
    ∃ c1, cfg_check lo hi c = .ok c1 ∧ c1.getname = 1 ∧
      c1.retry_count = c.retry_count := by
  refine ⟨apply_rules c, cfg_check_of_in_range lo hi c h1 h2, ?_⟩
  rw [apply_rules_eq]
  simp [hr]

/-- Witness of C5: a file with an explicit `GETNAME=0` and `RETRYCOUNT=5`. -/
theorem cfg_check_retry_forces_getname_witness :
    cfg_read (some "GETNAME=0\nRETRYCOUNT=5\n".toList) config
      = .ok { config with getname := 0, retry_count := 5 } ∧
    ∃ c1, cfg_check 1 30 { config with getname := 0, retry_count := 5 } = .ok c1 ∧
      c1.getname = 1 ∧ c1.retry_count = 5 :=
  ⟨rfl, cfg_check_retry_forces_getname 1 30 { config with getname := 0, retry_count := 5 }
    (by decide) (by decide) (by decide)⟩

/-- C6 (counterexample): the defaults with `retry_count = 0` and
`bluepropro = 1` pass the range checks (`MIN_SCAN = 1`, `MAX_SCAN = 30`) and
have `getname = 0`, but `cfg_check` returns `getname = 1`. -/
theorem cfg_check_retry_zero_counterexample :
    ({ config with retry_count := 0, bluepropro := 1 } : cfg).retry_count = 0 ∧
    ({ config with retry_count := 0, bluepropro := 1 } : cfg).getname = 0 ∧
    ¬ negative_args { config with retry_count := 0, bluepropro := 1 } ∧
    ¬ scan_out_of_range 1 30 { config with retry_count := 0, bluepropro := 1 } ∧
    cfg_check 1 30 { config with retry_count := 0, bluepropro := 1 }
      = .ok { config with bluepropro := 1, getname := 1 } := by
  refine ⟨rfl, rfl, by decide, by decide, rfl⟩

/-- C6 (amended): for every snapshot with `retry_count = 0` that passes the
range checks, `cfg_check` succeeds and returns a snapshot with
`retry_count = 3`, and with `getname` equal to the input `getname` when the
input has `bluepropro = 0` and `bluelive = 0`, and equal to 1 otherwise. -/
theorem cfg_check_retry_zero (lo hi : Int) (c : cfg)
    (hr : c.retry_count = 0)
    (h1 : ¬ negative_args c) (h2 : ¬ scan_out_of_range lo hi c) :
    ∃ c1, cfg_check lo hi c = .ok c1 ∧ c1.retry_count = 3 ∧
      (c.bluepropro = 0 ∧ c.bluelive = 0 → c1.getname = c.getname) ∧
      (c.bluepropro ≠ 0 ∨ c.bluelive ≠ 0 → c1.getname = 1) := by
  refine ⟨apply_rules c, cfg_check_of_in_range lo hi c h1 h2, ?_⟩
  rw [apply_rules_eq]
  by_cases h3 : c.bluepropro = 0 <;> by_cases h5 : c.bluelive = 0 <;> simp [hr, h3, h5]

/-- Witness of C6 (amended): the file whose only directive is `RETRYCOUNT=0`,
parsed into the defaults and resolved: `retry_count = 3`, `getname = 0`. -/
theorem cfg_check_retry_zero_witness :
    cfg_read (some "RETRYCOUNT=0\n".toList) config = .ok { config with retry_count := 0 } ∧
    ∃ c1, cfg_check 1 30 { config with retry_count := 0 } = .ok c1 ∧ c1.retry_count = 3 ∧
      ((0 : Int) = 0 ∧ (0 : Int) = 0 → c1.getname = 0) ∧
      ((0 : Int) ≠ 0 ∨ (0 : Int) ≠ 0 → c1.getname = 1) :=
  ⟨rfl, cfg_check_retry_zero 1 30 { config with retry_count := 0 } rfl
    (by decide) (by decide)⟩

/-- C7: in every snapshot returned by `cfg_check`, (4) `daemon ≠ 0` implies
`verbose = 0`, (6) `showclass ≠ 0` implies `friendlyclass = 0`, and
(9) `encode ≠ 0` implies `obfuscate = 0`. -/
theorem cfg_check_simple_overrides (lo hi : Int) (c c1 : cfg)
    (h : cfg_check lo hi c = .ok c1) :
    (c1.daemon ≠ 0 → c1.verbose = 0) ∧
    (c1.showclass ≠ 0 → c1.friendlyclass = 0) ∧
    (c1.encode ≠ 0 → c1.obfuscate = 0) := by
  obtain ⟨-, -, rfl⟩ := (cfg_check_ok_iff lo hi c c1).1 h
  rw [apply_rules_eq]
  by_cases h2 : c.daemon = 0 <;> by_cases h4 : c.showclass = 0 <;>
    by_cases h7 : c.encode = 0 <;> simp [h2, h4, h7]

/-- Witness of C7: daemon, class id and encoding switched on together with the
options they override. -/
theorem cfg_check_simple_overrides_witness :
    cfg_check 1 30
        { config with
          verbose := 1, daemon := 1, obfuscate := 1, encode := 1, showclass := 1,
          friendlyclass := 1 }
      = .ok { config with daemon := 1, encode := 1, showclass := 1, getname := 1 } ∧
    (((1 : Int) ≠ 0 → (0 : Int) = 0) ∧ ((1 : Int) ≠ 0 → (0 : Int) = 0) ∧
      ((1 : Int) ≠ 0 → (0 : Int) = 0)) :=
  ⟨rfl, cfg_check_simple_overrides 1 30
    { config with
      verbose := 1, daemon := 1, obfuscate := 1, encode := 1, showclass := 1,
      friendlyclass := 1 }
    { config with daemon := 1, encode := 1, showclass := 1, getname := 1 } rfl⟩

/-- C8: every snapshot returned by `cfg_check` has
`MIN_SCAN ≤ scan_window ≤ MAX_SCAN`, has `amnesia = -1` or `amnesia ≥ 0`, and
has `retry_count ≥ 0`. -/
theorem cfg_check_range_invariants (lo hi : Int) (c c1 : cfg)
    (h : cfg_check lo hi c = .ok c1) :
    (lo ≤ c1.scan_window ∧ c1.scan_window ≤ hi) ∧
    (c1.amnesia = -1 ∨ c1.amnesia ≥ 0) ∧
    c1.retry_count ≥ 0 := by
  obtain ⟨h1, h2, rfl⟩ := (cfg_check_ok_iff lo hi c c1).1 h
  have hp := apply_rules_retry_count_pos c
  have ha : (apply_rules c).amnesia = c.amnesia := by rw [apply_rules_eq]
  have hs : (apply_rules c).scan_window = c.scan_window := by rw [apply_rules_eq]
  rw [ha, hs]
  unfold negative_args at h1
  unfold scan_out_of_range at h2
  refine ⟨⟨?_, ?_⟩, ?_, ?_⟩
  · by_contra hc
    exact h2 (Or.inr (by omega))
  · by_contra hc
    exact h2 (Or.inl (by omega))
  · by_cases hm : c.amnesia = -1
    · exact Or.inl hm
    · right
      by_contra hc
      exact h1 (Or.inr ⟨by omega, hm⟩)
  · omega

/-- Witness of C8: a file that parses and resolves, with its resolved ranges. -/
theorem cfg_check_range_invariants_witness :
    cfg_read (some "SCANWINDOW=10\nAMNESIA=5\nRETRYCOUNT=0\n".toList) config
      = .ok { config with scan_window := 10, amnesia := 5, retry_count := 0 } ∧
    (((1 : Int) ≤ 10 ∧ (10 : Int) ≤ 30) ∧ ((5 : Int) = -1 ∨ (5 : Int) ≥ 0) ∧ (3 : Int) ≥ 0) :=
  ⟨rfl, cfg_check_range_invariants 1 30
    { config with scan_window := 10, amnesia := 5, retry_count := 0 }
    { config with scan_window := 10, amnesia := 5 } rfl⟩

/-! ## Lemmas on the tokenizer -/

theorem splitOnP_takeWhile (p : Char → Bool) (s : List Char) :
    s.splitOnP p = s.takeWhile (fun ch => !p ch) ::
      (match s.dropWhile (fun ch => !p ch) with
        | [] => []
        | _ :: r => r.splitOnP p) := by
  induction s with
  | nil => simp [List.splitOnP_nil]
  | cons a s ih =>
    rw [List.splitOnP_cons]
    by_cases h : p a = true
    · simp [h, List.takeWhile_cons, List.dropWhile_cons]
    · rw [ih]
      simp [h, List.takeWhile_cons, List.dropWhile_cons]

theorem tokens_nil : tokens [] = [] := by
  simp [tokens, List.splitOnP_nil]

theorem tokens_cons_delim (d : Char) (s : List Char) (h : is_delim d = true) :
    tokens (d :: s) = tokens s := by
  simp [tokens, List.splitOnP_cons, h]

theorem tokens_dropWhile (s : List Char) : tokens (s.dropWhile is_delim) = tokens s := by
  induction s with
  | nil => rfl
  | cons a s ih =>
    by_cases h : is_delim a = true
    · rw [List.dropWhile_cons_of_pos h, ih, tokens_cons_delim a s h]
    · rw [List.dropWhile_cons_of_neg h]

theorem tokens_cons_token (a : Char) (s : List Char) (h : ¬ is_delim a = true) :
    tokens (a :: s) =
      (a :: s).takeWhile (fun ch => !is_delim ch) ::
        tokens (((a :: s).dropWhile (fun ch => !is_delim ch)).drop 1) := by
  unfold tokens
  rw [splitOnP_takeWhile is_delim (a :: s)]
  have hne : ((a :: s).takeWhile (fun ch => !is_delim ch)) ≠ [] := by
    simp [List.takeWhile_cons, h]
  rw [List.filter_cons_of_pos (by simpa using hne)]
  congr 1
  cases hd : (a :: s).dropWhile (fun ch => !is_delim ch) with
  | nil => simp [List.splitOnP_nil]
  | cons b r => simp

/-- What `strtok` returns, in terms of the tokens of the string: `NULL` when
there is none, else the first token, the saved position holding the others. -/
theorem strtok_tokens (s : List Char) :
    (strtok s = none ∧ tokens s = []) ∨
    (∃ tok saved, strtok s = some (tok, saved) ∧ tokens s = tok :: tokens saved) := by
  unfold strtok
  cases hd : s.dropWhile is_delim with
  | nil =>
    left
    refine ⟨rfl, ?_⟩
    rw [← tokens_dropWhile, hd, tokens_nil]
  | cons a t =>
    right
    refine ⟨_, _, rfl, ?_⟩
    have ha : ¬ is_delim a = true := by
      have := List.head_dropWhile_not is_delim s (by rw [hd]; simp)
      simpa [hd] using this
    rw [← tokens_dropWhile, hd, tokens_cons_token a t ha]

theorem tokens_append_delim (s : List Char) (d : Char) (h : is_delim d = true) :
    tokens (s ++ [d]) = tokens s := by
  have key : (s ++ [d]).splitOnP is_delim = s.splitOnP is_delim ++ [[]] := by
    induction s with
    | nil => simp [List.splitOnP_cons, List.splitOnP_nil, h]
    | cons a s ih =>
      rw [List.cons_append, List.splitOnP_cons, List.splitOnP_cons, ih]
      by_cases ha : is_delim a = true
      · simp [ha]
      · simp only [ha, Bool.false_eq_true, if_false]
        cases hs : s.splitOnP is_delim with
        | nil => exact absurd hs (List.splitOnP_ne_nil _ _)
        | cons x xs => simp
  unfold tokens
  rw [key, List.filter_append]
  simp

theorem c_str_append_newline (l : List Char) :
    c_str (l ++ ['\n']) = c_str l ∨ c_str (l ++ ['\n']) = c_str l ++ ['\n'] := by
  induction l with
  | nil => right; decide
  | cons a l ih =>
    by_cases ha : a = '\x00'
    · left
      subst ha
      simp [c_str, List.takeWhile_cons]
    · have h1 : ∀ x, c_str (a :: x) = a :: c_str x := by
        intro x
        simp [c_str, List.takeWhile_cons, ha]
      rw [List.cons_append, h1, h1]
      rcases ih with ih | ih
      · left; rw [ih]
      · right; rw [ih]; rfl

/-- The newline that `fgets` leaves at the end of the buffer adds no token. -/
theorem line_tokens_append_newline (l : List Char) :
    line_tokens (l ++ ['\n']) = line_tokens l := by
  unfold line_tokens
  rcases c_str_append_newline l with h | h
  · rw [h]
  · rw [h, tokens_append_delim _ _ (by decide)]

/-! ## Lemmas on `cfg_read` -/

theorem dispatch_isSome_of_mem (t : List Char) (v : Int) (c : cfg)
    (h : t ∈ recognised_keys) : (dispatch t v c).isSome = true := by
  unfold recognised_keys at h
  simp only [List.mem_cons, List.mem_singleton, List.not_mem_nil, or_false] at h
  rcases h with h | h | h | h | h | h | h | h | h | h | h | h | h | h | h | h <;>
    subst h <;> rfl

theorem dispatch_eq_none_of_not_mem (t : List Char) (v : Int) (c : cfg)
    (h : t ∉ recognised_keys) : dispatch t v c = none := by
  unfold recognised_keys at h
  simp only [List.mem_cons, List.mem_singleton, List.not_mem_nil, or_false, not_or] at h
  obtain ⟨h1, h2, h3, h4, h5, h6, h7, h8, h9, h10, h11, h12, h13, h14, h15, h16⟩ := h
  unfold dispatch
  rw [if_neg h1, if_neg h2, if_neg h3, if_neg h4, if_neg h5, if_neg h6, if_neg h7, if_neg h8,
    if_neg h9, if_neg h10, if_neg h11, if_neg h12, if_neg h13, if_neg h14, if_neg h15,
    if_neg h16]

/-- The loop body in terms of the tokens of the line. -/
theorem cfg_read_line_eq (line : List Char) (n : Nat) (c : cfg) :
    cfg_read_line line n c =
      match line_tokens line with
      | [] => .ok c
      | t :: rest =>
        if t.head? = some '#' then .ok c
        else
          match rest with
          | v :: _ =>
            match dispatch t (atoi v) c with
            | some c1 => .ok c1
            | none => .error (.unknown_key n)
          | [] => .error (.missing_value n) := by
  unfold cfg_read_line line_tokens
  rcases strtok_tokens (c_str line) with ⟨h1, h2⟩ | ⟨tok, saved, h1, h2⟩
  · rw [h1, h2]
  · rw [h1, h2]
    simp only
    by_cases hc : tok.head? = some '#'
    · simp [hc]
    · simp only [hc, if_false]
      rcases strtok_tokens saved with ⟨h3, h4⟩ | ⟨v, saved2, h3, h4⟩
      · rw [h3, h4]
      · rw [h3, h4]

theorem cfg_read_line_append_newline (l : List Char) (n : Nat) (c : cfg) :
    cfg_read_line (l ++ ['\n']) n c = cfg_read_line l n c := by
  rw [cfg_read_line_eq, cfg_read_line_eq, line_tokens_append_newline]

theorem cfg_read_line_of_valid (l : List Char) (n : Nat) (c : cfg)
    (h : is_valid_line l = true) : ∃ c1, cfg_read_line l n c = .ok c1 := by
  rw [cfg_read_line_eq]
  unfold is_valid_line is_blank is_comment is_directive at h
  cases ht : line_tokens l with
  | nil => exact ⟨c, rfl⟩
  | cons t rest =>
    rw [ht] at h
    by_cases hc : t.head? = some '#'
    · exact ⟨c, by simp [hc]⟩
    · cases rest with
      | nil => simp [hc] at h
      | cons v rest2 =>
        have hk : t ∈ recognised_keys := by simpa [hc] using h
        have hs := dispatch_isSome_of_mem t (atoi v) c hk
        cases hd : dispatch t (atoi v) c with
        | none => rw [hd] at hs; cases hs
        | some c1 => exact ⟨c1, by simp [hc, hd]⟩

theorem cfg_read_line_of_unknown_key (l : List Char) (n : Nat) (c : cfg)
    (h : is_unknown_key_line l = true) :
    cfg_read_line l n c = .error (.unknown_key n) := by
  rw [cfg_read_line_eq]
  unfold is_unknown_key_line at h
  cases ht : line_tokens l with
  | nil => rw [ht] at h; cases h
  | cons t rest =>
    rw [ht] at h
    cases rest with
    | nil => cases h
    | cons v rest2 =>
      simp only [Bool.and_eq_true, decide_eq_true_eq, ne_eq] at h
      simp [h.1, dispatch_eq_none_of_not_mem t (atoi v) c h.2]

theorem cfg_read_line_of_missing_value (l : List Char) (n : Nat) (c : cfg)
    (h : is_missing_value_line l = true) :
    cfg_read_line l n c = .error (.missing_value n) := by
  rw [cfg_read_line_eq]
  unfold is_missing_value_line at h
  cases ht : line_tokens l with
  | nil => rw [ht] at h; cases h
  | cons t rest =>
    rw [ht] at h
    cases rest with
    | nil =>
      simp only [decide_eq_true_eq, ne_eq] at h
      simp [h]
    | cons v rest2 => cases h

theorem physical_lines_eq_nil (f : List Char) (h : physical_lines f = []) : f = [] := by
  cases f with
  | nil => rfl
  | cons ch s =>
    unfold physical_lines at h
    split_ifs at h
    cases hs : physical_lines s <;> rw [hs] at h <;> cases h

theorem fgets_chars_nil (n : Nat) : fgets_chars n [] = ([], []) := by
  cases n <;> rfl

/-- When the first physical line is shorter than the read limit, `fgets` stores
exactly that line (with its newline if it has one) and leaves the other lines
unread. -/
theorem fgets_chars_line (f : List Char) :
    ∀ (n : Nat) (l : List Char) (ls : List (List Char)),
      physical_lines f = l :: ls → l.length < n →
      physical_lines (fgets_chars n f).2 = ls ∧
      ((fgets_chars n f).1 = l ∨ (fgets_chars n f).1 = l ++ ['\n']) ∧
      (fgets_chars n f).2.length < f.length := by
  induction f with
  | nil => intro n l ls h; cases h
  | cons ch s ih =>
    intro n l ls h hlen
    cases n with
    | zero => cases hlen
    | succ m =>
      unfold physical_lines at h
      by_cases hch : ch = '\n'
      · rw [if_pos hch] at h
        injection h with h1 h2
        subst h1
        simp [fgets_chars, hch, h2]
      · rw [if_neg hch] at h
        cases hs : physical_lines s with
        | nil =>
          rw [hs] at h
          injection h with h1 h2
          have hnil := physical_lines_eq_nil s hs
          subst hnil
          subst h1
          subst h2
          simp [fgets_chars, hch, fgets_chars_nil, physical_lines]
        | cons l1 ls1 =>
          rw [hs] at h
          injection h with h1 h2
          subst h1
          subst h2
          have hl1 : l1.length < m := by
            simp only [List.length_cons] at hlen
            omega
          obtain ⟨e1, e2, e3⟩ := ih m l1 ls1 hs hl1
          simp only [fgets_chars, hch, if_false]
          refine ⟨e1, ?_, ?_⟩
          · rcases e2 with e2 | e2
            · left; rw [e2]
            · right; rw [e2]; rfl
          · simp only [List.length_cons]
            omega

/-- The loop stops with the error of the first line that raises one, at that
line's number, when the lines before it are valid and every line fits in one
read. -/
theorem cfg_read_loop_error (err : Nat → cfg_error) (l : List Char)
    (hl : ∀ m c, cfg_read_line l m c = .error (err m)) :
    ∀ (pre : List (List Char)) (f : List Char) (post : List (List Char))
      (fuel n : Nat) (c : cfg),
      physical_lines f = pre ++ l :: post →
      (∀ x ∈ physical_lines f, x.length ≤ 254) →
      (∀ x ∈ pre, is_valid_line x = true) →
      f.length < fuel →
      cfg_read_loop fuel f n c = .error (err (n + pre.length)) := by
  intro pre
  induction pre with
  | nil =>
    intro f post fuel n c hlines hlen _ hfuel
    cases fuel with
    | zero => cases hfuel
    | succ k =>
      have hne : f ≠ [] := by
        rintro rfl
        cases hlines
      have hl254 : l.length < MAX_LINE_LEN - 1 := by
        have := hlen l (by rw [hlines]; simp)
        unfold MAX_LINE_LEN
        omega
      obtain ⟨-, e2, -⟩ := fgets_chars_line f _ l post hlines hl254
      have hbuf : cfg_read_line (fgets_chars (MAX_LINE_LEN - 1) f).1 n c = .error (err n) := by
        rcases e2 with e2 | e2
        · rw [e2, hl]
        · rw [e2, cfg_read_line_append_newline, hl]
      simp only [cfg_read_loop, fgets, hne, if_false, hbuf, List.length_nil, Nat.add_zero]
  | cons p pre ih =>
    intro f post fuel n c hlines hlen hpre hfuel
    cases fuel with
    | zero => cases hfuel
    | succ k =>
      have hne : f ≠ [] := by
        rintro rfl
        cases hlines
      have hp254 : p.length < MAX_LINE_LEN - 1 := by
        have := hlen p (by rw [hlines]; simp)
        unfold MAX_LINE_LEN
        omega
      obtain ⟨e1, e2, e3⟩ := fgets_chars_line f _ p (pre ++ l :: post) hlines hp254
      obtain ⟨c1, hc1⟩ := cfg_read_line_of_valid p n c (hpre p (by simp))
      have hbuf : cfg_read_line (fgets_chars (MAX_LINE_LEN - 1) f).1 n c = .ok c1 := by
        rcases e2 with e2 | e2
        · rw [e2, hc1]
        · rw [e2, cfg_read_line_append_newline, hc1]
      have hrest := ih (fgets_chars (MAX_LINE_LEN - 1) f).2 post k (n + 1) c1 e1
        (by
          intro x hx
          rw [e1] at hx
          exact hlen x (by rw [hlines]; exact List.mem_cons_of_mem _ hx))
        (fun x hx => hpre x (List.mem_cons_of_mem _ hx))
        (by omega)
      simp only [cfg_read_loop, fgets, hne, if_false, hbuf, hrest, List.length_cons]
      congr 2
      omega

theorem fgets_chars_length_le (f : List Char) :
    ∀ n : Nat, (fgets_chars n f).2.length ≤ f.length := by
  induction f with
  | nil => intro n; rw [fgets_chars_nil]
  | cons ch s ih =>
    intro n
    cases n with
    | zero => simp [fgets_chars]
    | succ m =>
      by_cases hch : ch = '\n'
      · simp [fgets_chars, hch]
      · simp only [fgets_chars, hch, if_false, List.length_cons]
        have := ih m
        omega

theorem fgets_chars_length_lt (ch : Char) (s : List Char) (n : Nat) :
    (fgets_chars (n + 1) (ch :: s)).2.length < (ch :: s).length := by
  by_cases hch : ch = '\n'
  · simp [fgets_chars, hch]
  · simp only [fgets_chars, hch, if_false, List.length_cons]
    have := fgets_chars_length_le s n
    omega

theorem cfg_read_line_ne_fuel (l : List Char) (n : Nat) (c : cfg) :
    cfg_read_line l n c ≠ .error .out_of_fuel := by
  unfold cfg_read_line
  split
  · simp
  · split_ifs
    · simp
    · split
      · split <;> simp
      · simp

/-- The iteration budget of `cfg_read` is never exhausted: every read that
does not return `NULL` consumes at least one character. -/
theorem cfg_read_loop_fuel (fuel : Nat) :
    ∀ (f : List Char) (n : Nat) (c : cfg), f.length < fuel →
      cfg_read_loop fuel f n c ≠ .error .out_of_fuel := by
  induction fuel with
  | zero => intro f n c h; cases h
  | succ k ih =>
    intro f n c h
    cases f with
    | nil => simp [cfg_read_loop, fgets]
    | cons ch s =>
      have hlt := fgets_chars_length_lt ch s 254
      simp only [cfg_read_loop, fgets, MAX_LINE_LEN, reduceCtorEq, if_false]
      cases hline : cfg_read_line (fgets_chars (256 - 1) (ch :: s)).1 n c with
      | ok c1 =>
        simp only
        apply ih
        have : (256 : Nat) - 1 = 254 + 1 := rfl
        rw [this]
        omega
      | error e =>
        simp only
        intro he
        have he1 := Except.error.inj he
        subst he1
        exact cfg_read_line_ne_fuel _ n c hline

theorem cfg_read_fuel (f : List Char) (c : cfg) :
    cfg_read (some f) c ≠ .error .out_of_fuel :=
  cfg_read_loop_fuel (f.length + 1) f 1 c (by omega)

/-! ## C9 and C10: errors of the File Parser -/

/-- C9: in a file whose physical lines all have at most 254 characters, if the
lines before line `k` are blank lines, comments or directives with a recognised
key, and line `k` has a first token that does not begin with `#`, is none of the
16 recognised keys, and is followed by a second token, then `cfg_read` fails
with the unknown-key error carrying `k` (here `pre.length + 1`, the lines
counted from 1, blank lines and comments included). -/
theorem cfg_read_unknown_key (file : List Char) (c : cfg)
    (pre : List (List Char)) (l : List Char) (post : List (List Char))
    (hlen : ∀ x ∈ physical_lines file, x.length ≤ 254)
    (hlines : physical_lines file = pre ++ l :: post)
    (hpre : ∀ x ∈ pre, is_valid_line x = true)
    (hl : is_unknown_key_line l = true) :
    cfg_read (some file) c = .error (.unknown_key (pre.length + 1)) := by
  have h := cfg_read_loop_error cfg_error.unknown_key l
    (fun m c0 => cfg_read_line_of_unknown_key l m c0 hl)
    pre file post (file.length + 1) 1 c hlines hlen hpre (by omega)
  rw [Nat.add_comm 1 pre.length] at h
  exact h

/-- Witness of C9: `FOO=1` on line 3, after a directive and a comment, is
reported on line 3; the lower-case `verbose=1`, on line 2 after a blank line,
is rejected as unknown. -/
theorem cfg_read_unknown_key_witness :
    cfg_read (some "VERBOSE=1\n# note\nFOO=1\nQUIET=1\n".toList) config
      = .error (.unknown_key 3) ∧
    cfg_read (some "\nverbose=1".toList) config = .error (.unknown_key 2) :=
  ⟨cfg_read_unknown_key "VERBOSE=1\n# note\nFOO=1\nQUIET=1\n".toList config
      ["VERBOSE=1".toList, "# note".toList] "FOO=1".toList ["QUIET=1".toList]
      (by decide) (by decide) (by decide) (by decide),
   cfg_read_unknown_key "\nverbose=1".toList config [[]] "verbose=1".toList []
      (by decide) (by decide) (by decide) (by decide)⟩

/-- C10: in a file whose physical lines all have at most 254 characters, if the
lines before line `k` parse without error (blank lines, comments, directives
with a recognised key) and line `k` has a first token that does not begin with
`#` and no second token, whether or not that token is a recognised key, then
`cfg_read` fails with the missing-value error carrying `k` (here
`pre.length + 1`). -/
theorem cfg_read_missing_value (file : List Char) (c : cfg)
    (pre : List (List Char)) (l : List Char) (post : List (List Char))
    (hlen : ∀ x ∈ physical_lines file, x.length ≤ 254)
    (hlines : physical_lines file = pre ++ l :: post)
    (hpre : ∀ x ∈ pre, is_valid_line x = true)
    (hl : is_missing_value_line l = true) :
    cfg_read (some file) c = .error (.missing_value (pre.length + 1)) := by
  have h := cfg_read_loop_error cfg_error.missing_value l
    (fun m c0 => cfg_read_line_of_missing_value l m c0 hl)
    pre file post (file.length + 1) 1 c hlines hlen hpre (by omega)
  rw [Nat.add_comm 1 pre.length] at h
  exact h

/-- Witness of C10: a line consisting of `RETRYCOUNT` alone, on line 2; and a
lone token that is no key, on line 1. -/
theorem cfg_read_missing_value_witness :
    cfg_read (some "QUIET=1\nRETRYCOUNT\nVERBOSE=1\n".toList) config
      = .error (.missing_value 2) ∧
    cfg_read (some "FOO\n".toList) config = .error (.missing_value 1) :=
  ⟨cfg_read_missing_value "QUIET=1\nRETRYCOUNT\nVERBOSE=1\n".toList config
      ["QUIET=1".toList] "RETRYCOUNT".toList ["VERBOSE=1".toList]
      (by decide) (by decide) (by decide) (by decide),
   cfg_read_missing_value "FOO\n".toList config [] "FOO".toList []
      (by decide) (by decide) (by decide) (by decide)⟩

/-! ## Lemmas on the rules one by one -/

theorem apply_rules_eq_state_after (c : cfg) : apply_rules c = state_after 7 c := rfl

/-- Every assignment of a rule writes the one constant of its field: 1 to
`getname`, 3 to `retry_count`, 0 to any other field. -/
theorem assigned_value (i : Nat) (s : cfg) (k : key) (v : Int)
    (h : (k, v) ∈ assigned i s) :
    v = if k = .getname then 1 else if k = .retry_count then 3 else 0 := by
  rcases i with _ | _ | _ | _ | _ | _ | _ | i <;> simp only [assigned] at h
  · split_ifs at h <;> simp at h <;> obtain ⟨rfl, rfl⟩ := h <;> rfl
  · split_ifs at h <;> simp at h; obtain ⟨rfl, rfl⟩ := h; rfl
  · split_ifs at h <;> simp at h
    rcases h with ⟨rfl, rfl⟩ | ⟨rfl, rfl⟩ | ⟨rfl, rfl⟩ <;> rfl
  · split_ifs at h <;> simp at h; obtain ⟨rfl, rfl⟩ := h; rfl
  · split_ifs at h <;> simp at h
    rcases h with ⟨rfl, rfl⟩ | ⟨rfl, rfl⟩ | ⟨rfl, rfl⟩ <;> rfl
  · split_ifs at h <;> simp at h
    rcases h with ⟨rfl, rfl⟩ | ⟨rfl, rfl⟩ | ⟨rfl, rfl⟩ <;> rfl
  · split_ifs at h <;> simp at h; obtain ⟨rfl, rfl⟩ := h; rfl
  · simp at h

/-- A rule leaves a field as it was or gives it the value of one of its
assignments. -/
theorem rule_at_get (i : Nat) (s : cfg) (k : key) :
    k.get (rule_at i s) = k.get s ∨ ∃ v, (k, v) ∈ assigned i s ∧ k.get (rule_at i s) = v := by
  rcases i with _ | _ | _ | _ | _ | _ | _ | i
  · by_cases h : s.retry_count > 0 <;> cases k <;>
      simp [rule_at, rule_retry, assigned, key.get, h]
  · by_cases h : s.daemon = 0 <;> cases k <;>
      simp [rule_at, rule_daemon, assigned, key.get, h]
  · by_cases h : s.bluepropro = 0 <;> cases k <;>
      simp [rule_at, rule_bluepropro, assigned, key.get, h]
  · by_cases h : s.showclass = 0 <;> cases k <;>
      simp [rule_at, rule_showclass, assigned, key.get, h]
  · by_cases h : s.bluelive = 0 <;> cases k <;>
      simp [rule_at, rule_bluelive, assigned, key.get, h]
  · by_cases h : s.syslogonly = 0 <;> cases k <;>
      simp [rule_at, rule_syslogonly, assigned, key.get, h]
  · by_cases h : s.encode = 0 <;> cases k <;>
      simp [rule_at, rule_encode, assigned, key.get, h]
  · left; rfl

/-- A rule that executes an assignment leaves the assigned value in the field. -/
theorem rule_at_assigned (i : Nat) (s : cfg) (k : key) (v : Int)
    (h : (k, v) ∈ assigned i s) : k.get (rule_at i s) = v := by
  rcases rule_at_get i s k with h1 | ⟨w, hw, h1⟩
  · rcases i with _ | _ | _ | _ | _ | _ | _ | i <;> simp only [assigned] at h
    · by_cases hg : s.retry_count > 0 <;> simp [hg] at h <;> obtain ⟨rfl, rfl⟩ := h <;>
        simp [rule_at, rule_retry, key.get, hg]
    · by_cases hg : s.daemon = 0 <;> simp [hg] at h; obtain ⟨rfl, rfl⟩ := h
      simp [rule_at, rule_daemon, key.get, hg]
    · by_cases hg : s.bluepropro = 0 <;> simp [hg] at h
      rcases h with ⟨rfl, rfl⟩ | ⟨rfl, rfl⟩ | ⟨rfl, rfl⟩ <;>
        simp [rule_at, rule_bluepropro, key.get, hg]
    · by_cases hg : s.showclass = 0 <;> simp [hg] at h; obtain ⟨rfl, rfl⟩ := h
      simp [rule_at, rule_showclass, key.get, hg]
    · by_cases hg : s.bluelive = 0 <;> simp [hg] at h
      rcases h with ⟨rfl, rfl⟩ | ⟨rfl, rfl⟩ | ⟨rfl, rfl⟩ <;>
        simp [rule_at, rule_bluelive, key.get, hg]
    · by_cases hg : s.syslogonly = 0 <;> simp [hg] at h
      rcases h with ⟨rfl, rfl⟩ | ⟨rfl, rfl⟩ | ⟨rfl, rfl⟩ <;>
        simp [rule_at, rule_syslogonly, key.get, hg]
    · by_cases hg : s.encode = 0 <;> simp [hg] at h; obtain ⟨rfl, rfl⟩ := h
      simp [rule_at, rule_encode, key.get, hg]
    · simp at h
  · rw [h1, assigned_value i s k w hw, assigned_value i s k v h]

/-- Once a rule has assigned a field, the field keeps that value through all
the later rules of the run. -/
theorem state_after_keeps (c : cfg) (i : Nat) (k : key) (v : Int)
    (h : (k, v) ∈ assigned i (state_after i c)) :
    ∀ m, i < m → k.get (state_after m c) = v := by
  intro m hm
  induction m with
  | zero => omega
  | succ m ih =>
    by_cases hmi : m = i
    · subst hmi
      exact rule_at_assigned m _ k v h
    · have ih1 := ih (by omega)
      show k.get (rule_at m (state_after m c)) = v
      rcases rule_at_get m (state_after m c) k with h1 | ⟨w, hw, h1⟩
      · rw [h1, ih1]
      · rw [h1, assigned_value _ _ k w hw, assigned_value _ _ k v h]

/-! ## C14 and C16 to C19: defaults, order and frame of the Rule Resolver -/

/-- C14: the initial snapshot `config` has `verbose`, `quiet`, `daemon`,
`bluelive`, `showtime`, `obfuscate`, `encode`, `showclass`, `friendlyclass`,
`bluepropro`, `getname`, `syslogonly` and `getmanufacturer` equal to 0,
`amnesia = -1`, `retry_count = 3`, `scan_window = 8`, and no `outfilename`. -/
theorem config_defaults :
    config.verbose = 0 ∧ config.quiet = 0 ∧ config.daemon = 0 ∧ config.bluelive = 0 ∧
    config.showtime = 0 ∧ config.obfuscate = 0 ∧ config.encode = 0 ∧
    config.showclass = 0 ∧ config.friendlyclass = 0 ∧ config.bluepropro = 0 ∧
    config.getname = 0 ∧ config.syslogonly = 0 ∧ config.getmanufacturer = 0 ∧
    config.amnesia = -1 ∧ config.retry_count = 3 ∧ config.scan_window = 8 ∧
    config.outfilename = none :=
  ⟨rfl, rfl, rfl, rfl, rfl, rfl, rfl, rfl, rfl, rfl, rfl, rfl, rfl, rfl, rfl, rfl, rfl⟩

/-- C16 (refutation): there is no snapshot, whether or not it passes the range
checks, for which a rule executes an assignment to a field and the field holds
a different value after a later rule of the same run. -/
theorem cfg_check_undo_counterexample :
    ¬ ∃ (c : cfg) (i j : Nat) (k : key) (v : Int),
        i < j ∧ j < 7 ∧ (k, v) ∈ assigned i (state_after i c) ∧
        k.get (state_after (j + 1) c) ≠ v := by
  rintro ⟨c, i, j, k, v, hij, -, h, hne⟩
  exact hne (state_after_keeps c i k v h (j + 1) (by omega))

/-- C16 (amended): in every run of the override rules, once rule `i` has
assigned a value to a field, the field holds that value before and after every
later rule `j`, and in the snapshot `cfg_check` returns; the value is the one
constant of the field (1 for `getname`, 3 for `retry_count`, 0 otherwise), so a
later rule can only assign the same value again. -/
theorem cfg_check_rules_never_undo (c : cfg) (i j : Nat) (k : key) (v : Int)
    (hij : i < j) (hj : j < 7) (h : (k, v) ∈ assigned i (state_after i c)) :
    k.get (state_after j c) = v ∧ k.get (state_after (j + 1) c) = v ∧
    k.get (apply_rules c) = v ∧
    v = (if k = .getname then 1 else if k = .retry_count then 3 else 0) ∧
    (∀ w, (k, w) ∈ assigned j (state_after j c) → w = v) := by
  refine ⟨state_after_keeps c i k v h j hij,
    state_after_keeps c i k v h (j + 1) (by omega), ?_, assigned_value _ _ k v h, ?_⟩
  · rw [apply_rules_eq_state_after]
    exact state_after_keeps c i k v h 7 (by omega)
  · intro w hw
    rw [assigned_value _ _ k w hw, assigned_value _ _ k v h]

/-- Witness of C16 (amended): with push-protocol and live display both on, the
push-protocol rule (position 2) assigns 1 to `getname`, and the field is still
1 around the live-display rule (position 4) and in the result. -/
theorem cfg_check_rules_never_undo_witness :
    key.get .getname (state_after 4 { config with bluepropro := 1, bluelive := 1 }) = 1 ∧
    key.get .getname (state_after (4 + 1) { config with bluepropro := 1, bluelive := 1 }) = 1 ∧
    key.get .getname (apply_rules { config with bluepropro := 1, bluelive := 1 }) = 1 ∧
    (1 : Int) = (if key.getname = .getname then 1 else
      if key.getname = .retry_count then 3 else 0) ∧
    (∀ w, (key.getname, w) ∈
        assigned 4 (state_after 4 { config with bluepropro := 1, bluelive := 1 }) → w = 1) :=
  cfg_check_rules_never_undo { config with bluepropro := 1, bluelive := 1 } 2 4 .getname 1
    (by decide) (by decide) (by decide)

/-- C17: whenever 8 lies in `[MIN_SCAN, MAX_SCAN]`, there is a snapshot passing
the range checks, with `bluepropro ≠ 0` and `syslogonly ≠ 0`, on which the
rules with the syslog-only rule moved before the push-protocol rule return a
snapshot different from the one `cfg_check` returns. -/
theorem cfg_check_order_observable (lo hi : Int) (hlo : lo ≤ 8) (hhi : 8 ≤ hi) :
    ∃ c c1 c2, c.bluepropro ≠ 0 ∧ c.syslogonly ≠ 0 ∧
      ¬ negative_args c ∧ ¬ scan_out_of_range lo hi c ∧
      cfg_check lo hi c = .ok c1 ∧ cfg_check_reordered lo hi c = .ok c2 ∧ c1 ≠ c2 := by
  have ha : ¬ negative_args { config with bluepropro := 1, syslogonly := 1 } := by decide
  have hb : ¬ scan_out_of_range lo hi { config with bluepropro := 1, syslogonly := 1 } := by
    intro h
    rcases h with h | h
    · exact absurd (show (8 : Int) > hi from h) (by omega)
    · exact absurd (show (8 : Int) < lo from h) (by omega)
  refine ⟨{ config with bluepropro := 1, syslogonly := 1 },
    { config with bluepropro := 1, getname := 1 },
    { config with syslogonly := 1, getname := 1 },
    by decide, by decide, ha, hb, ?_, ?_, by decide⟩
  · rw [cfg_check_of_in_range lo hi _ ha hb]
    rfl
  · simp only [cfg_check_reordered, ha, hb, if_false]
    rfl

/-- Witness of C17: `MIN_SCAN = 1` and `MAX_SCAN = 30`. -/
theorem cfg_check_order_observable_witness :
    ∃ c c1 c2, c.bluepropro ≠ 0 ∧ c.syslogonly ≠ 0 ∧
      ¬ negative_args c ∧ ¬ scan_out_of_range 1 30 c ∧
      cfg_check 1 30 c = .ok c1 ∧ cfg_check_reordered 1 30 c = .ok c2 ∧ c1 ≠ c2 :=
  cfg_check_order_observable 1 30 (by decide) (by decide)

/-- C18: for every snapshot passing the range checks, `cfg_check` returns
`bluepropro` as it was; `bluelive` as it was when `bluepropro = 0` and 0
otherwise; `syslogonly` as it was when `bluepropro = 0` and `bluelive = 0`, and
0 otherwise.  At most one of the three mode rules has its condition true when
it is reached, and at most one of the three flags is non-zero in the result. -/
theorem cfg_check_mode_cascade (lo hi : Int) (c : cfg)
    (h1 : ¬ negative_args c) (h2 : ¬ scan_out_of_range lo hi c) :
    ∃ c1, cfg_check lo hi c = .ok c1 ∧
      c1.bluepropro = c.bluepropro ∧
      c1.bluelive = (if c.bluepropro = 0 then c.bluelive else 0) ∧
      c1.syslogonly = (if c.bluepropro = 0 ∧ c.bluelive = 0 then c.syslogonly else 0) ∧
      ¬ ((state_after 2 c).bluepropro ≠ 0 ∧ (state_after 4 c).bluelive ≠ 0) ∧
      ¬ ((state_after 2 c).bluepropro ≠ 0 ∧ (state_after 5 c).syslogonly ≠ 0) ∧
      ¬ ((state_after 4 c).bluelive ≠ 0 ∧ (state_after 5 c).syslogonly ≠ 0) ∧
      ¬ (c1.bluepropro ≠ 0 ∧ c1.bluelive ≠ 0) ∧
      ¬ (c1.bluepropro ≠ 0 ∧ c1.syslogonly ≠ 0) ∧
      ¬ (c1.bluelive ≠ 0 ∧ c1.syslogonly ≠ 0) := by
  refine ⟨apply_rules c, cfg_check_of_in_range lo hi c h1 h2, ?_⟩
  rw [apply_rules_eq]
  obtain ⟨fn, vb, qu, dm, bl, st, ob, en, sc, fc, bp, gn, am, sy, gm, rc, sw, so⟩ := c
  by_cases h3 : bp = 0 <;> by_cases h5 : bl = 0 <;> by_cases h6 : sy = 0 <;>
    by_cases hr : rc > 0 <;> by_cases hd : dm = 0 <;> by_cases hs : sc = 0 <;>
    simp [state_after, rule_at, rule_retry, rule_daemon, rule_bluepropro, rule_showclass,
      rule_bluelive, h3, h5, h6, hr, hd, hs]

/-- Witness of C18: all three modes on; only push-protocol survives. -/
theorem cfg_check_mode_cascade_witness :
    ∃ c1, cfg_check 1 30 { config with bluepropro := 1, bluelive := 1, syslogonly := 1 }
        = .ok c1 ∧
      c1.bluepropro = 1 ∧
      c1.bluelive = (if (1 : Int) = 0 then 1 else 0) ∧
      c1.syslogonly = (if (1 : Int) = 0 ∧ (1 : Int) = 0 then 1 else 0) ∧
      ¬ ((state_after 2 { config with bluepropro := 1, bluelive := 1, syslogonly := 1 }).bluepropro ≠ 0 ∧
         (state_after 4 { config with bluepropro := 1, bluelive := 1, syslogonly := 1 }).bluelive ≠ 0) ∧
      ¬ ((state_after 2 { config with bluepropro := 1, bluelive := 1, syslogonly := 1 }).bluepropro ≠ 0 ∧
         (state_after 5 { config with bluepropro := 1, bluelive := 1, syslogonly := 1 }).syslogonly ≠ 0) ∧
      ¬ ((state_after 4 { config with bluepropro := 1, bluelive := 1, syslogonly := 1 }).bluelive ≠ 0 ∧
         (state_after 5 { config with bluepropro := 1, bluelive := 1, syslogonly := 1 }).syslogonly ≠ 0) ∧
      ¬ (c1.bluepropro ≠ 0 ∧ c1.bluelive ≠ 0) ∧
      ¬ (c1.bluepropro ≠ 0 ∧ c1.syslogonly ≠ 0) ∧
      ¬ (c1.bluelive ≠ 0 ∧ c1.syslogonly ≠ 0) :=
  cfg_check_mode_cascade 1 30 { config with bluepropro := 1, bluelive := 1, syslogonly := 1 }
    (by decide) (by decide)

/-- C19: for every snapshot on which `cfg_check` succeeds, `quiet`, `daemon`,
`encode`, `showclass`, `getmanufacturer`, `amnesia`, `scan_window`,
`outfilename` and `bt_socket` are returned unchanged; `verbose`, `bluelive`,
`showtime`, `obfuscate`, `friendlyclass`, `bluepropro` and `syslogonly` are
returned unchanged or as 0; `getname` is returned unchanged or as 1; and
`retry_count` is returned unchanged or as 3. -/
theorem cfg_check_frame (lo hi : Int) (c c1 : cfg) (h : cfg_check lo hi c = .ok c1) :
    (c1.quiet = c.quiet ∧ c1.daemon = c.daemon ∧ c1.encode = c.encode ∧
      c1.showclass = c.showclass ∧ c1.getmanufacturer = c.getmanufacturer ∧
      c1.amnesia = c.amnesia ∧ c1.scan_window = c.scan_window ∧
      c1.outfilename = c.outfilename ∧ c1.bt_socket = c.bt_socket) ∧
    ((c1.verbose = c.verbose ∨ c1.verbose = 0) ∧
      (c1.bluelive = c.bluelive ∨ c1.bluelive = 0) ∧
      (c1.showtime = c.showtime ∨ c1.showtime = 0) ∧
      (c1.obfuscate = c.obfuscate ∨ c1.obfuscate = 0) ∧
      (c1.friendlyclass = c.friendlyclass ∨ c1.friendlyclass = 0) ∧
      (c1.bluepropro = c.bluepropro ∨ c1.bluepropro = 0) ∧
      (c1.syslogonly = c.syslogonly ∨ c1.syslogonly = 0)) ∧
    (c1.getname = c.getname ∨ c1.getname = 1) ∧
    (c1.retry_count = c.retry_count ∨ c1.retry_count = 3) := by
  obtain ⟨-, -, rfl⟩ := (cfg_check_ok_iff lo hi c c1).1 h
  rw [apply_rules_eq]
  refine ⟨⟨rfl, rfl, rfl, rfl, rfl, rfl, rfl, rfl, rfl⟩, ⟨?_, ?_, ?_, ?_, ?_, ?_, ?_⟩, ?_, ?_⟩
  · by_cases h2 : c.daemon = 0 <;> simp [h2]
  · by_cases h3 : c.bluepropro = 0 <;> simp [h3]
  · by_cases h3 : c.bluepropro = 0 ∧ (c.bluelive ≠ 0 ∨ c.syslogonly ≠ 0)
    · right; simp only [h3, and_self, if_true]
    · left; simp only [h3, if_false]
  · by_cases h7 : c.encode = 0 <;> simp [h7]
  · by_cases h4 : c.showclass = 0 <;> simp [h4]
  · left; rfl
  · by_cases h3 : c.bluepropro ≠ 0 ∨ c.bluelive ≠ 0
    · right; simp only [h3, if_true]
    · left; simp only [h3, if_false]
  · by_cases hg : c.retry_count > 0 ∨ c.bluepropro ≠ 0 ∨ c.bluelive ≠ 0
    · right; simp only [hg, if_true]
    · left; simp only [hg, if_false]
  · by_cases hr : c.retry_count > 0
    · left; simp only [hr, if_true]
    · right; simp only [hr, if_false]

/-- Witness of C19: daemon mode with `verbose = 1` and `retry_count = 0`. -/
theorem cfg_check_frame_witness :
    cfg_check 1 30 { config with verbose := 1, daemon := 1, retry_count := 0 }
      = .ok { config with daemon := 1 } ∧
    (((0 : Int) = 0 ∧ (1 : Int) = 1 ∧ (0 : Int) = 0 ∧ (0 : Int) = 0 ∧ (0 : Int) = 0 ∧
      (-1 : Int) = -1 ∧ (8 : Int) = 8 ∧ (none : Option String) = none ∧ (0 : Int) = 0) ∧
    (((0 : Int) = 1 ∨ (0 : Int) = 0) ∧ ((0 : Int) = 0 ∨ (0 : Int) = 0) ∧
      ((0 : Int) = 0 ∨ (0 : Int) = 0) ∧ ((0 : Int) = 0 ∨ (0 : Int) = 0) ∧
      ((0 : Int) = 0 ∨ (0 : Int) = 0) ∧ ((0 : Int) = 0 ∨ (0 : Int) = 0) ∧
      ((0 : Int) = 0 ∨ (0 : Int) = 0)) ∧
    ((0 : Int) = 0 ∨ (0 : Int) = 1) ∧
    ((3 : Int) = 0 ∨ (3 : Int) = 3)) :=
  ⟨rfl, cfg_check_frame 1 30 { config with verbose := 1, daemon := 1, retry_count := 0 }
    { config with daemon := 1 } rfl⟩

/-! ## Lemmas on the effect of lines -/

theorem key_names : [key.verbose, .quiet, .daemon, .bluelive, .showtime, .obfuscate, .encode,
    .showclass, .friendlyclass, .bluepropro, .getname, .amnesia, .syslogonly,
    .getmanufacturer, .scan_window, .retry_count].map key.name = recognised_keys := rfl

theorem c_str_of_all (s : List Char) (h : s.all (fun ch => ch ≠ '\x00') = true) :
    c_str s = s := by
  unfold c_str
  rw [List.takeWhile_eq_self_iff]
  intro x hx
  exact List.all_eq_true.1 h x hx

theorem splitOnP_c_str (l : List Char) :
    (c_str l).splitOnP is_delim = cut_at_nul (l.splitOnP is_delim) := by
  induction l with
  | nil => rfl
  | cons a l ih =>
    by_cases hq : a = '\x00'
    · subst hq
      have h1 : c_str ('\x00' :: l) = [] := by simp [c_str]
      rw [h1, List.splitOnP_cons]
      have hd : is_delim '\x00' = false := by decide
      simp only [hd, Bool.false_eq_true, if_false]
      cases hs : l.splitOnP is_delim with
      | nil => exact absurd hs (List.splitOnP_ne_nil _ _)
      | cons s ss =>
        simp [List.modifyHead, cut_at_nul, c_str, List.splitOnP_nil]
    · have h1 : c_str (a :: l) = a :: c_str l := by
        simp [c_str, List.takeWhile_cons, hq]
      rw [h1, List.splitOnP_cons, List.splitOnP_cons, ih]
      by_cases hp : is_delim a = true
      · simp [hp, cut_at_nul]
      · simp only [hp, if_false]
        cases hs : l.splitOnP is_delim with
        | nil => exact absurd hs (List.splitOnP_ne_nil _ _)
        | cons s ss =>
          by_cases hall : s.all (fun ch => ch ≠ '\x00') = true
          · have hall2 : (a :: s).all (fun ch => ch ≠ '\x00') = true := by
              simp only [List.all_cons, Bool.and_eq_true, decide_eq_true_eq]
              exact ⟨hq, hall⟩
            simp only [cut_at_nul, hall, if_true, List.modifyHead, hall2, Bool.false_eq_true,
              if_false]
          · have hall2 : ¬ (a :: s).all (fun ch => ch ≠ '\x00') = true := by
              simp only [List.all_cons, Bool.and_eq_true, decide_eq_true_eq, not_and]
              exact fun _ => hall
            simp only [cut_at_nul, hall, if_false, List.modifyHead, hall2, Bool.false_eq_true]
            simp [c_str, List.takeWhile_cons, hq]

theorem filter_ne_cons (t : List Char) (ts : List (List Char)) (h : t ≠ []) :
    List.filter (fun t => !t.isEmpty) (t :: ts) = t :: List.filter (fun t => !t.isEmpty) ts := by
  cases t with
  | nil => exact absurd rfl h
  | cons a s => rfl

theorem filter_cut_at_nul (ss : List (List Char)) :
    (cut_at_nul ss).filter (fun t => !t.isEmpty) =
      (cut_at_nul (ss.filter (fun t => !t.isEmpty))).filter (fun t => !t.isEmpty) := by
  induction ss with
  | nil => rfl
  | cons s ss ih =>
    cases s with
    | nil =>
      have e1 : List.filter (fun t : List Char => !t.isEmpty) ([] :: ss)
          = List.filter (fun t => !t.isEmpty) ss := rfl
      have e2 : cut_at_nul ([] :: ss) = [] :: cut_at_nul ss := rfl
      rw [e1, e2, ← ih]
      rfl
    | cons a s =>
      have hne : a :: s ≠ [] := List.cons_ne_nil a s
      rw [filter_ne_cons _ _ hne]
      by_cases hall : (a :: s).all (fun ch => ch ≠ '\x00') = true
      · have e1 : ∀ xs, cut_at_nul ((a :: s) :: xs) = (a :: s) :: cut_at_nul xs := by
          intro xs
          simp only [cut_at_nul, hall, if_true]
        rw [e1, e1, filter_ne_cons _ _ hne, filter_ne_cons _ _ hne, ih]
      · have e1 : ∀ xs, cut_at_nul ((a :: s) :: xs) = [c_str (a :: s)] := by
          intro xs
          simp only [cut_at_nul, hall, Bool.false_eq_true, if_false]
        rw [e1, e1]

/-- The tokens the program sees on a line, from the tokens of the whole line. -/
theorem line_tokens_eq_cut (l : List Char) :
    line_tokens l = (cut_at_nul (tokens l)).filter (fun t => !t.isEmpty) := by
  unfold line_tokens tokens
  rw [splitOnP_c_str, filter_cut_at_nul]

theorem tokens_ne_nil (l : List Char) : ∀ t ∈ tokens l, t ≠ [] := by
  intro t ht
  unfold tokens at ht
  have := (List.mem_filter.1 ht).2
  intro e
  subst e
  simp at this

theorem cut_at_nul_take (ts : List (List Char)) (hne : ∀ t ∈ ts, t ≠ []) :
    ((cut_at_nul ts).filter (fun t => !t.isEmpty)).take 2 =
      ((cut_at_nul (ts.take 2)).filter (fun t => !t.isEmpty)).take 2 := by
  match ts, hne with
  | [], _ => rfl
  | [t1], _ => rfl
  | t1 :: t2 :: rest, hne =>
    have h1 : t1 ≠ [] := hne t1 (by simp)
    have h2 : t2 ≠ [] := hne t2 (by simp)
    have etake : List.take 2 (t1 :: t2 :: rest) = [t1, t2] := rfl
    rw [etake]
    by_cases ha : t1.all (fun ch => ch ≠ '\x00') = true
    · have e1 : ∀ xs, cut_at_nul (t1 :: xs) = t1 :: cut_at_nul xs := by
        intro xs
        simp only [cut_at_nul, ha, if_true]
      by_cases hb : t2.all (fun ch => ch ≠ '\x00') = true
      · have e2 : ∀ xs, cut_at_nul (t2 :: xs) = t2 :: cut_at_nul xs := by
          intro xs
          simp only [cut_at_nul, hb, if_true]
        rw [e1, e2, e1, e2, filter_ne_cons _ _ h1, filter_ne_cons _ _ h2,
          filter_ne_cons _ _ h1, filter_ne_cons _ _ h2]
        rfl
      · have e2 : ∀ xs, cut_at_nul (t2 :: xs) = [c_str t2] := by
          intro xs
          simp only [cut_at_nul, hb, Bool.false_eq_true, if_false]
        rw [e1, e2, e1, e2]
    · have e1 : ∀ xs, cut_at_nul (t1 :: xs) = [c_str t1] := by
        intro xs
        simp only [cut_at_nul, ha, Bool.false_eq_true, if_false]
      rw [e1, e1]

/-- Lines whose first two tokens agree, NUL taken as an ordinary character,
also agree on the first two tokens the program sees. -/
theorem line_tokens_take_of_tokens_take (l1 l2 : List Char)
    (h : (tokens l1).take 2 = (tokens l2).take 2) :
    (line_tokens l1).take 2 = (line_tokens l2).take 2 := by
  rw [line_tokens_eq_cut, line_tokens_eq_cut,
    cut_at_nul_take _ (tokens_ne_nil l1), cut_at_nul_take _ (tokens_ne_nil l2), h]

/-- The loop body looks at the first two tokens of the line only. -/
theorem cfg_read_line_congr (l1 l2 : List Char) (n : Nat) (c : cfg)
    (h : (line_tokens l1).take 2 = (line_tokens l2).take 2) :
    cfg_read_line l1 n c = cfg_read_line l2 n c := by
  rw [cfg_read_line_eq, cfg_read_line_eq]
  match h1 : line_tokens l1, h2 : line_tokens l2 with
  | [], [] => rfl
  | [], _ :: _ => rw [h1, h2] at h; cases h
  | _ :: _, [] => rw [h1, h2] at h; cases h
  | [t1], [t2] =>
    rw [h1, h2] at h
    have e : t1 = t2 := by simpa using h
    subst e
    rfl
  | [t1], t2 :: v2 :: r2 => rw [h1, h2] at h; simp at h
  | t1 :: v1 :: r1, [t2] => rw [h1, h2] at h; simp at h
  | t1 :: v1 :: r1, t2 :: v2 :: r2 =>
    rw [h1, h2] at h
    have e : t1 = t2 ∧ v1 = v2 := by simpa using h
    obtain ⟨e1, e2⟩ := e
    subst e1
    subst e2
    rfl

theorem fgets_chars_newline (l rest : List Char) (hnl : '\n' ∉ l) :
    ∀ n, l.length < n → fgets_chars n (l ++ '\n' :: rest) = (l ++ ['\n'], rest) := by
  induction l with
  | nil =>
    intro n hn
    cases n with
    | zero => cases hn
    | succ m => simp [fgets_chars]
  | cons a l ih =>
    intro n hn
    cases n with
    | zero => cases hn
    | succ m =>
      have ha : a ≠ '\n' := fun e => hnl (by simp [e])
      have hrec := ih (fun hmem => hnl (List.mem_cons_of_mem _ hmem)) m
        (by simp only [List.length_cons] at hn; omega)
      rw [List.cons_append]
      unfold fgets_chars
      rw [if_neg ha, hrec]
      rfl

/-- The result of the loop does not depend on the iteration budget, once the
budget exceeds the length of what is left to read. -/
theorem cfg_read_loop_fuel_irrel (fuel1 : Nat) :
    ∀ (fuel2 : Nat) (f : List Char) (n : Nat) (c : cfg),
      f.length < fuel1 → f.length < fuel2 →
      cfg_read_loop fuel1 f n c = cfg_read_loop fuel2 f n c := by
  induction fuel1 with
  | zero => intro fuel2 f n c h; cases h
  | succ k ih =>
    intro fuel2 f n c h1 h2
    cases fuel2 with
    | zero => cases h2
    | succ k2 =>
      cases f with
      | nil => simp [cfg_read_loop, fgets]
      | cons ch s =>
        have hlt := fgets_chars_length_lt ch s 254
        simp only [cfg_read_loop, fgets, MAX_LINE_LEN, reduceCtorEq, if_false]
        cases cfg_read_line (fgets_chars (256 - 1) (ch :: s)).1 n c with
        | error e => rfl
        | ok c1 =>
          simp only
          have e255 : (256 : Nat) - 1 = 254 + 1 := rfl
          rw [e255]
          simp only [List.length_cons] at h1 h2 hlt
          exact ih k2 _ (n + 1) c1 (by omega) (by omega)

/-- C20: two lines with the same first token and the same second token (each
present or absent alike) have the same effect in `cfg_read`: the loop body
returns the same snapshot or the same error on both, and so do the loop and
`cfg_read` itself on files that differ in that line only (the line fitting in
one read), whatever follows the second token. -/
theorem cfg_read_first_two_tokens (l1 l2 : List Char) (n : Nat) (c : cfg)
    (h : (tokens l1).take 2 = (tokens l2).take 2 ∨
      (line_tokens l1).take 2 = (line_tokens l2).take 2) :
    cfg_read_line l1 n c = cfg_read_line l2 n c ∧
    (∀ (rest : List Char) (fuel : Nat),
      l1.length ≤ 254 → l2.length ≤ 254 → '\n' ∉ l1 → '\n' ∉ l2 →
      cfg_read_loop (fuel + 1) (l1 ++ '\n' :: rest) n c
        = cfg_read_loop (fuel + 1) (l2 ++ '\n' :: rest) n c ∧
      cfg_read (some (l1 ++ '\n' :: rest)) c = cfg_read (some (l2 ++ '\n' :: rest)) c) := by
  have ht : (line_tokens l1).take 2 = (line_tokens l2).take 2 := by
    rcases h with h | h
    · exact line_tokens_take_of_tokens_take l1 l2 h
    · exact h
  have hbody : ∀ m c0, cfg_read_line l1 m c0 = cfg_read_line l2 m c0 :=
    fun m c0 => cfg_read_line_congr l1 l2 m c0 ht
  refine ⟨hbody n c, ?_⟩
  intro rest fuel hl1 hl2 hn1 hn2
  have hne : ∀ l : List Char, l ++ '\n' :: rest ≠ [] := by
    intro l e
    have := congrArg List.length e
    simp at this
  have hf : ∀ l : List Char, l.length ≤ 254 → '\n' ∉ l →
      fgets MAX_LINE_LEN (l ++ '\n' :: rest) = some (l ++ ['\n'], rest) := by
    intro l hl hn
    simp only [fgets, hne l, if_false, MAX_LINE_LEN]
    rw [fgets_chars_newline l rest hn (256 - 1) (by omega)]
  have hstep : ∀ (l : List Char) (k m : Nat) (c0 : cfg), l.length ≤ 254 → '\n' ∉ l →
      cfg_read_loop (k + 1) (l ++ '\n' :: rest) m c0 =
        (match cfg_read_line l m c0 with
          | .ok c1 => cfg_read_loop k rest (m + 1) c1
          | .error e => .error e) := by
    intro l k m c0 hl hn
    simp only [cfg_read_loop, hf l hl hn, cfg_read_line_append_newline]
  constructor
  · rw [hstep l1 fuel n c hl1 hn1, hstep l2 fuel n c hl2 hn2, hbody n c]
  · have e1 : (l1 ++ '\n' :: rest).length + 1 = (l1.length + rest.length + 1) + 1 := by
      simp only [List.length_append, List.length_cons]
      omega
    have e2 : (l2 ++ '\n' :: rest).length + 1 = (l2.length + rest.length + 1) + 1 := by
      simp only [List.length_append, List.length_cons]
      omega
    simp only [cfg_read]
    rw [e1, e2, hstep l1 _ 1 c hl1 hn1, hstep l2 _ 1 c hl2 hn2, hbody 1 c]
    cases cfg_read_line l2 1 c with
    | error e => rfl
    | ok c1 =>
      simp only
      exact cfg_read_loop_fuel_irrel _ _ rest 2 c1 (by omega) (by omega)

/-- Witness of C20: `VERBOSE=1` and `VERBOSE == 1 trailing junk` with leading
blanks have the same effect. -/
theorem cfg_read_first_two_tokens_witness :
    cfg_read_line "VERBOSE=1".toList 1 config
      = cfg_read_line "  VERBOSE == 1 trailing junk".toList 1 config ∧
    cfg_read_line "  VERBOSE == 1 trailing junk".toList 1 config
      = .ok { config with verbose := 1 } ∧
    cfg_read (some ("VERBOSE=1".toList ++ '\n' :: "QUIET=1\n".toList)) config
      = cfg_read (some ("  VERBOSE == 1 trailing junk".toList ++ '\n' :: "QUIET=1\n".toList))
          config :=
  ⟨(cfg_read_first_two_tokens "VERBOSE=1".toList "  VERBOSE == 1 trailing junk".toList 1
      config (Or.inl (by decide))).1,
    rfl,
    ((cfg_read_first_two_tokens "VERBOSE=1".toList "  VERBOSE == 1 trailing junk".toList 1
      config (Or.inl (by decide))).2 "QUIET=1\n".toList 0
      (by decide) (by decide) (by decide) (by decide)).2⟩

end Bluelog
